import Mathlib

/-!
spire-k8s: node attestor and sidecar-injecting webhook

A shallow embedding of `node-attestor/node-attestor.go` and
`skbridge/webhook/webhook.go`.

Conventions of the embedding

* Go `string` and text held in `[]byte` are sequences of Unicode code points
  (`String`, or `List Char` inside the text machinery); a Go string that is not
  valid UTF-8 has no counterpart here.
* Opaque byte strings (certificates, request bodies) are `Bytes`.
* Calls into the cluster client, the file system, the X.509 library and the
  typed JSON codecs of the Kubernetes API types are either returned as data
  (the call that is made, with its arguments) or taken as arguments
  (the result the library gave).
* The standard-library functions whose results the program computes with
  (`strconv` formatting behind `%d`, `text/template`, the generic decoder and the
  encoder of `encoding/json`) are embedded after the behaviour of the library; the
  conversion of JSON numbers to `float64` is taken as an argument.
* Logging is left out.
-/

namespace SpireK8s

/-- A Go byte slice with opaque content. -/
abbrev Bytes := List (Fin 256)

/-! ## strconv / fmt: decimal formatting used by `fmt.Sprintf("%s-%d", ...)` -/

namespace strconv

/-- The digit loop of `strconv.formatBits` for base 10: the least significant digit is
split off until the rest is below 10; `acc` holds the digits already produced, most
significant first. The first argument bounds the number of iterations. -/
def formatBits : Nat → Nat → List Char → List Char
  | 0, _, acc => acc
  | fuel + 1, u, acc =>
    if u < 10 then Nat.digitChar u :: acc
    else formatBits fuel (u / 10) (Nat.digitChar (u % 10) :: acc)

/-- Decimal text of an unsigned number, `strconv.FormatUint(u, 10)`. -/
def FormatUint (u : Nat) : List Char := formatBits (u + 1) u []

/-- Decimal text of a signed number, `strconv.FormatInt(i, 10)`, which is what the verb
`%d` prints for an `int64`. -/
def FormatInt (i : Int) : List Char :=
  if i < 0 then '-' :: FormatUint i.natAbs else FormatUint i.natAbs

/-- The number a decimal text stands for, read digit by digit from the value `v`. -/
def digitsValue (v : Nat) (l : List Char) : Nat :=
  l.foldl (fun v c => 10 * v + (c.toNat - 48)) v

end strconv

/-! ## node-attestor -/

namespace NodeAttestor

def csrPemBlockType : String := "CERTIFICATE REQUEST"
def ecPrivateKeyPemBlockType : String := "EC PRIVATE KEY"
def idDocFileName : String := "id-doc"

/-- The result of `path.Join`, kept as the list of joined elements (the lexical cleaning
done by the library is not part of the embedding). -/
structure Path where
  elems : List String
  deriving DecidableEq, Repr

def path.Join (elems : List String) : Path := ⟨elems⟩

namespace pkix

/-- The fields of `pkix.Name` a caller can set. -/
structure Name where
  Country : List String := []
  Organization : List String := []
  OrganizationalUnit : List String := []
  Locality : List String := []
  Province : List String := []
  StreetAddress : List String := []
  PostalCode : List String := []
  SerialNumber : String := ""
  CommonName : String := ""
  deriving DecidableEq, Repr

end pkix

namespace x509

inductive SignatureAlgorithm
  | UnknownSignatureAlgorithm
  | SHA256WithRSA
  | SHA384WithRSA
  | SHA512WithRSA
  | ECDSAWithSHA1
  | ECDSAWithSHA256
  | ECDSAWithSHA384
  | ECDSAWithSHA512
  deriving DecidableEq, Repr

/-- The fields of `x509.CertificateRequest` that `x509.CreateCertificateRequest` reads
from its template; a field left out of a composite literal has its zero value. -/
structure CertificateRequest where
  SignatureAlgorithm : SignatureAlgorithm := .UnknownSignatureAlgorithm
  Subject : pkix.Name := {}
  DNSNames : List String := []
  EmailAddresses : List String := []
  IPAddresses : List Bytes := []
  URIs : List String := []
  deriving DecidableEq, Repr

/-- The call `x509.CreateCertificateRequest(rand.Reader, &template, priv)`. -/
structure CreateCertificateRequest (Key : Type) where
  template : CertificateRequest
  priv : Key

end x509

/-- `genCSR` (node-attestor.go:88-99): builds the template and hands it, with the key, to
`x509.CreateCertificateRequest`, whose result it returns unchanged. -/
def genCSR {Key : Type} (key : Key) (name : String) : x509.CreateCertificateRequest Key :=
  let csrTemplate : x509.CertificateRequest :=
    { Subject :=
        { Organization := ["system:nodes"]
          CommonName := "system:node:" ++ name }
      SignatureAlgorithm := .ECDSAWithSHA256 }
  { template := csrTemplate, priv := key }

namespace watch

abbrev EventType := String

def Added : EventType := "ADDED"
def Modified : EventType := "MODIFIED"
def Deleted : EventType := "DELETED"
def Error : EventType := "ERROR"

end watch

namespace certificates

abbrev RequestConditionType := String

def CertificateApproved : RequestConditionType := "Approved"
def CertificateDenied : RequestConditionType := "Denied"

structure CertificateSigningRequestCondition where
  Type_ : RequestConditionType
  Reason : String := ""
  Message : String := ""
  deriving DecidableEq, Repr

structure CertificateSigningRequestStatus where
  Conditions : List CertificateSigningRequestCondition := []
  Certificate : Bytes := []
  deriving DecidableEq, Repr

structure CertificateSigningRequestSpec where
  Request : Bytes := []
  Groups : List String := []
  Usages : List String := []
  deriving DecidableEq, Repr

/-- A signing request; `Name` is `ObjectMeta.Name`. -/
structure CertificateSigningRequest where
  Name : String
  Spec : CertificateSigningRequestSpec := {}
  Status : CertificateSigningRequestStatus := {}
  deriving DecidableEq, Repr

end certificates

/-- The dynamic type of an event's `Object`: a signing request, or some other object
(an error event carries a status object), on which the type assertion of line 187 fails. -/
inductive Object
  | csr (c : certificates.CertificateSigningRequest)
  | other (kind : String)
  deriving DecidableEq, Repr

structure Event where
  Type_ : watch.EventType
  Object : Object
  deriving DecidableEq, Repr

/-- The watcher's result channel: `wc i` is what the receive number `i` yields, an
event, or `none` once the channel has been closed. Every receive returns; a channel that
stays open and silent for ever is not represented. -/
abbrev ResultChan := Nat → Option Event

/-- The name under which the request is submitted (node-attestor.go:170):
`fmt.Sprintf("%s-%d", *agentName, time.Now().Unix())`. -/
def csrObjectName (agentName : String) (now : Int) : String :=
  agentName ++ "-" ++ String.mk (strconv.FormatInt now)

/-- The inner loop (node-attestor.go:192-197): the first condition of type `Approved`
assigns the status certificate to `cert` and leaves the loop. -/
def scanConditions (conds : List certificates.CertificateSigningRequestCondition)
    (certificate cert : Bytes) : Bytes :=
  match conds with
  | [] => cert
  | cond :: rest =>
    if cond.Type_ = certificates.CertificateApproved then certificate
    else scanConditions rest certificate cert

/-- Where control stands in the approval wait of `main` (node-attestor.go:186-202). -/
inductive LoopState
  /-- At the head of the `range` loop, about to receive event number `next`. -/
  | watching (next : Nat) (cert : Bytes)
  /-- Left by the `break` of line 200 while handling event number `idx`. -/
  | approved (idx : Nat) (cert : Bytes)
  /-- The channel was closed: the `range` loop ran to its end. -/
  | drained (cert : Bytes)
  /-- The call of `log.Fatal` at line 189: the process has exited. -/
  | fatal
  deriving DecidableEq, Repr

/-- One pass of the loop body (node-attestor.go:187-201) on a received event. -/
def loopBody (csrObjectName : String) (idx : Nat) (cert : Bytes) (event : Event) : LoopState :=
  match event.Object with
  | .other _ => .fatal
  | .csr csr =>
    let cert :=
      if event.Type_ = watch.Modified ∧ csr.Name = csrObjectName then
        scanConditions csr.Status.Conditions csr.Status.Certificate cert
      else cert
    if cert.length > 0 then .approved idx cert else .watching (idx + 1) cert

/-- One step of the wait: receive from the channel, then run the body. -/
def step (csrObjectName : String) (wc : ResultChan) : LoopState → LoopState
  | .watching i cert =>
    match wc i with
    | none => .drained cert
    | some event => loopBody csrObjectName i cert event
  | s => s

/-- The state after `n` steps, starting from `var cert []byte` (line 180). -/
def run (csrObjectName : String) (wc : ResultChan) : Nat → LoopState
  | 0 => .watching 0 []
  | n + 1 => step csrObjectName wc (run csrObjectName wc n)

/-- Whether control has left the loop. -/
def LoopState.ended : LoopState → Bool
  | .watching _ _ => false
  | _ => true

/-- What the run does once the wait is over. -/
inductive Outcome
  /-- The call of `log.Fatalf` or `log.Fatal`, with its message. -/
  | fatal (msg : String)
  /-- The call `ioutil.WriteFile(file, data, perm)` of line 205 is reached. -/
  | writeFile (file : Path) (data : Bytes) (perm : Nat)
  deriving DecidableEq, Repr

/-- Lines 204-205, entered from a loop state: `none` while the loop is still waiting. -/
def afterLoop (idDocDir : String) : LoopState → Option Outcome
  | .watching _ _ => none
  | .fatal => some (.fatal "unexpected event type during watch")
  | .approved _ cert => some (.writeFile (path.Join [idDocDir, idDocFileName ++ ".crt"]) cert 0o644)
  | .drained cert => some (.writeFile (path.Join [idDocDir, idDocFileName ++ ".crt"]) cert 0o644)

/-- The approval phase of `main` (node-attestor.go:179-205) observed after `n` steps of
the loop: `watchResult` is what the `Watch` call returned (an error text, or the
watcher's channel). -/
def approvalPhase (idDocDir csrObjectName : String) (watchResult : Except String ResultChan)
    (n : Nat) : Option Outcome :=
  match watchResult with
  | .error err => some (.fatal ("Error watching CSRs on ApiServer: " ++ err))
  | .ok wc => afterLoop idDocDir (run csrObjectName wc n)

/-- The loop is left (by `break`, by the end of the channel or by a fatal exit) after
finitely many steps. -/
def Terminates (csrObjectName : String) (wc : ResultChan) : Prop :=
  ∃ n, (run csrObjectName wc n).ended = true

/-- The event names the given request and its condition set contains `Approved`. -/
def namesApproved (csrObjectName : String) (event : Event) : Bool :=
  match event.Object with
  | .csr csr =>
    decide (csr.Name = csrObjectName) &&
      csr.Status.Conditions.any (fun cond => decide (cond.Type_ = certificates.CertificateApproved))
  | .other _ => false

/-- The event is a `MODIFIED` event that names the given request, has an `Approved`
condition and carries a non-empty certificate. -/
def approves (csrObjectName : String) (event : Event) : Bool :=
  decide (event.Type_ = watch.Modified) && namesApproved csrObjectName event &&
    match event.Object with
    | .csr csr => decide (csr.Status.Certificate ≠ [])
    | .other _ => false

/-- The event carries a signing request. -/
def Event.isRequest (event : Event) : Bool :=
  match event.Object with
  | .csr _ => true
  | .other _ => false

/-! ### Concrete events and channels -/

/-- The bytes of the text `CERTBYTES`. -/
def CERTBYTES : Bytes := [67, 69, 82, 84, 66, 89, 84, 69, 83]

/-- A request with one `Approved` condition. -/
def approvedRequest (name : String) (certificate : Bytes) :
    certificates.CertificateSigningRequest :=
  { Name := name
    Status := { Conditions := [{ Type_ := certificates.CertificateApproved }]
                Certificate := certificate } }

/-- The event of the end-to-end scenario: `MODIFIED`, approved, certificate issued. -/
def approvedEvent : Event :=
  ⟨watch.Modified, .csr (approvedRequest "node-1-1700000000" CERTBYTES)⟩

/-- Approved, but the certificate has not been issued yet. -/
def pendingEvent : Event :=
  ⟨watch.Modified, .csr (approvedRequest "node-1-1700000000" [])⟩

/-- Approved with its certificate, but reported by an `ADDED` event. -/
def addedEvent : Event :=
  ⟨watch.Added, .csr (approvedRequest "node-1-1700000000" CERTBYTES)⟩

/-- An approved request of another agent. -/
def otherEvent : Event :=
  ⟨watch.Modified, .csr (approvedRequest "node-2-1700000000" CERTBYTES)⟩

/-- A channel that is closed from the start. -/
def closedChan : ResultChan := fun _ => none

/-- A channel that delivers one event and is then closed. -/
def singleChan (e : Event) : ResultChan := fun i => if i = 0 then some e else none

/-- A channel that delivers the same event for ever. -/
def constChan (e : Event) : ResultChan := fun _ => some e

end NodeAttestor

end SpireK8s

namespace SpireK8s

/-- Text held in a Go `string` or `[]byte`, as a sequence of code points. -/
abbrev Text := List Char

deriving instance DecidableEq for Except

/-! ## encoding/json: the generic (`interface{}`) decoder and the encoder -/

namespace json

/-- What `json.Unmarshal` stores in an `interface{}`: `nil`, `bool`, `float64`, `string`,
`[]interface{}` or `map[string]interface{}`. A number is held as the text the encoder
prints for its `float64`; a map is held as the list of its entries, each key once. -/
inductive Value
  | null
  | bool (b : Bool)
  | number (text : Text)
  | string (s : Text)
  | array (elems : List Value)
  | object (members : List (Text × Value))

/-- A container the scanner is inside of: an array with the elements read so far (last
one first), or an object with its entries so far and the key whose value is awaited. -/
inductive Frame
  | array (elems : List Value)
  | object (members : List (Text × Value)) (key : Option Text)

/-- Where the scanner stands inside a number literal. -/
inductive NumState
  | neg | zero | int | dot | frac | exp | expSign | expDigits
  deriving DecidableEq

/-- What the scanner expects next. -/
inductive Mode
  /-- The start of a value. -/
  | beginValue
  /-- After `[`: a value or `]`. -/
  | beginValueOrEmpty
  /-- After the opening brace of an object: a key or the closing brace. -/
  | beginStringOrEmpty
  /-- After a comma in an object: a key. -/
  | beginString
  /-- Inside a string literal: `acc` holds the decoded text so far, last character first;
  `hi` is a UTF-16 surrogate from a `\u` escape whose partner may still follow. -/
  | inString (isKey : Bool) (acc : Text) (hi : Option Nat)
  /-- After a backslash in a string literal. -/
  | inStringEsc (isKey : Bool) (acc : Text) (hi : Option Nat)
  /-- After `\u` in a string literal, with the hex digits read so far. -/
  | inStringEscU (isKey : Bool) (acc : Text) (hi : Option Nat) (digits : List Nat)
  /-- After an object key: a colon. -/
  | colon
  /-- After a value: a comma, the end of the enclosing container, or the end of input. -/
  | endValue
  /-- Inside a number literal, with its text so far, last character first. -/
  | inNumber (st : NumState) (acc : Text)
  /-- Inside `true`, `false` or `null`: the characters still to come, and the value. -/
  | inLiteral (rest : Text) (v : Value)
  /-- A syntax error, or a number outside the range of `float64`. -/
  | error

/-- The state of a decoding run. -/
structure Decoder where
  mode : Mode
  stack : List Frame
  result : Option Value

def isSpace (c : Char) : Bool :=
  c = ' ' || c = '\t' || c = '\r' || c = '\n'

def failed : Decoder := ⟨.error, [], none⟩

/-- Assignment to a map entry: a key already present gets the new value. -/
def setMember (k : Text) (v : Value) : List (Text × Value) → List (Text × Value)
  | [] => [(k, v)]
  | (k', v') :: rest => if k' = k then (k, v) :: rest else (k', v') :: setMember k v rest

/-- A value has been read in full: it becomes the result, the next array element, or the
value of the awaited key. -/
def complete (v : Value) : List Frame → Decoder
  | [] => ⟨.endValue, [], some v⟩
  | .array elems :: rest => ⟨.endValue, .array (v :: elems) :: rest, none⟩
  | .object members (some k) :: rest =>
    ⟨.endValue, .object (setMember k v members) none :: rest, none⟩
  | .object _ none :: _ => failed

/-- The scanner at the first character of a value. -/
def beginValue (stack : List Frame) (c : Char) : Decoder :=
  if c = '\x7b' then ⟨.beginStringOrEmpty, .object [] none :: stack, none⟩
  else if c = '[' then ⟨.beginValueOrEmpty, .array [] :: stack, none⟩
  else if c = '"' then ⟨.inString false [] none, stack, none⟩
  else if c = '-' then ⟨.inNumber .neg [c], stack, none⟩
  else if c = '0' then ⟨.inNumber .zero [c], stack, none⟩
  else if '1' ≤ c ∧ c ≤ '9' then ⟨.inNumber .int [c], stack, none⟩
  else if c = 't' then ⟨.inLiteral ['r', 'u', 'e'] (.bool true), stack, none⟩
  else if c = 'f' then ⟨.inLiteral ['a', 'l', 's', 'e'] (.bool false), stack, none⟩
  else if c = 'n' then ⟨.inLiteral ['u', 'l', 'l'] .null, stack, none⟩
  else failed

/-- The scanner after a value: a comma or the end of the enclosing container. -/
def endValue (stack : List Frame) (result : Option Value) (c : Char) : Decoder :=
  match stack with
  | [] => if isSpace c then ⟨.endValue, [], result⟩ else failed
  | .array elems :: rest =>
    if isSpace c then ⟨.endValue, stack, result⟩
    else if c = ',' then ⟨.beginValue, stack, none⟩
    else if c = ']' then complete (.array elems.reverse) rest
    else failed
  | .object members key :: rest =>
    if isSpace c then ⟨.endValue, stack, result⟩
    else if c = ',' then ⟨.beginString, stack, none⟩
    else if c = '\x7d' then
      match key with
      | none => complete (.object members) rest
      | some _ => failed
    else failed

/-- A string literal has been closed: it is an object key or a value. -/
def endString (isKey : Bool) (s : Text) (stack : List Frame) : Decoder :=
  if isKey then
    match stack with
    | .object members none :: rest => ⟨.colon, .object members (some s) :: rest, none⟩
    | _ => failed
  else complete (.string s) stack

/-- The decoded text with a surrogate that found no partner replaced by U+FFFD. -/
def flush (acc : Text) : Option Nat → Text
  | none => acc
  | some _ => '\uFFFD' :: acc

def hexValue (c : Char) : Option Nat :=
  if '0' ≤ c ∧ c ≤ '9' then some (c.toNat - '0'.toNat)
  else if 'a' ≤ c ∧ c ≤ 'f' then some (c.toNat - 'a'.toNat + 10)
  else if 'A' ≤ c ∧ c ≤ 'F' then some (c.toNat - 'A'.toNat + 10)
  else none

def isSurrogate (r : Nat) : Bool := 0xD800 ≤ r && r < 0xE000

/-- The code unit `r` of a `\u` escape has been read: it completes a surrogate pair, or
is kept as a surrogate awaiting its partner, or stands for itself. -/
def escapedUnit (isKey : Bool) (acc : Text) (hi : Option Nat) (r : Nat) : Mode :=
  match hi with
  | some h =>
    if 0xD800 ≤ h ∧ h < 0xDC00 ∧ 0xDC00 ≤ r ∧ r < 0xE000 then
      .inString isKey (Char.ofNat ((h - 0xD800) * 0x400 + (r - 0xDC00) + 0x10000) :: acc) none
    else if isSurrogate r then .inString isKey ('\uFFFD' :: acc) (some r)
    else .inString isKey (Char.ofNat r :: '\uFFFD' :: acc) none
  | none =>
    if isSurrogate r then .inString isKey acc (some r)
    else .inString isKey (Char.ofNat r :: acc) none

/-- The character an escape other than `\u` stands for. -/
def escapedChar (c : Char) : Option Char :=
  if c = '"' then some '"'
  else if c = '\\' then some '\\'
  else if c = '/' then some '/'
  else if c = 'b' then some '\x08'
  else if c = 'f' then some '\x0c'
  else if c = 'n' then some '\n'
  else if c = 'r' then some '\r'
  else if c = 't' then some '\t'
  else none

def isDigit (c : Char) : Bool := '0' ≤ c && c ≤ '9'

/-- The scanner inside a number literal: the next state, or `none` when the character
does not continue the literal. -/
def numberNext (st : NumState) (c : Char) : Option NumState :=
  match st with
  | .neg => if c = '0' then some .zero else if isDigit c then some .int else none
  | .zero =>
    if c = '.' then some .dot else if c = 'e' ∨ c = 'E' then some .exp else none
  | .int =>
    if isDigit c then some .int
    else if c = '.' then some .dot else if c = 'e' ∨ c = 'E' then some .exp else none
  | .dot => if isDigit c then some .frac else none
  | .frac =>
    if isDigit c then some .frac else if c = 'e' ∨ c = 'E' then some .exp else none
  | .exp =>
    if c = '+' ∨ c = '-' then some .expSign else if isDigit c then some .expDigits else none
  | .expSign => if isDigit c then some .expDigits else none
  | .expDigits => if isDigit c then some .expDigits else none

/-- Whether a number literal may end in this state. -/
def NumState.accepting : NumState → Bool
  | .zero | .int | .frac | .expDigits => true
  | _ => false

/-- A number literal has ended: `float64` gives the text of the value read from it, or
`none` when the literal is out of range. -/
def endNumber (float64 : Text → Option Text) (st : NumState) (acc : Text)
    (stack : List Frame) : Decoder :=
  if st.accepting then
    match float64 acc.reverse with
    | some text => complete (.number text) stack
    | none => failed
  else failed

/-- One character of input. -/
def step (float64 : Text → Option Text) : Decoder → Char → Decoder
  | ⟨mode, stack, result⟩, c =>
    match mode with
    | .error => failed
    | .beginValue => if isSpace c then ⟨.beginValue, stack, none⟩ else beginValue stack c
    | .beginValueOrEmpty =>
      if isSpace c then ⟨.beginValueOrEmpty, stack, none⟩
      else if c = ']' then
        match stack with
        | .array elems :: rest => complete (.array elems.reverse) rest
        | _ => failed
      else beginValue stack c
    | .beginStringOrEmpty =>
      if isSpace c then ⟨.beginStringOrEmpty, stack, none⟩
      else if c = '\x7d' then
        match stack with
        | .object members none :: rest => complete (.object members) rest
        | _ => failed
      else if c = '"' then ⟨.inString true [] none, stack, none⟩
      else failed
    | .beginString =>
      if isSpace c then ⟨.beginString, stack, none⟩
      else if c = '"' then ⟨.inString true [] none, stack, none⟩
      else failed
    | .inString isKey acc hi =>
      if c = '"' then endString isKey (flush acc hi).reverse stack
      else if c = '\\' then ⟨.inStringEsc isKey acc hi, stack, none⟩
      else if c.toNat < 0x20 then failed
      else ⟨.inString isKey (c :: flush acc hi) none, stack, none⟩
    | .inStringEsc isKey acc hi =>
      if c = 'u' then ⟨.inStringEscU isKey acc hi [], stack, none⟩
      else
        match escapedChar c with
        | some e => ⟨.inString isKey (e :: flush acc hi) none, stack, none⟩
        | none => failed
    | .inStringEscU isKey acc hi digits =>
      match hexValue c with
      | none => failed
      | some x =>
        match digits with
        | [x2, x1, x0] =>
          ⟨escapedUnit isKey acc hi (((x0 * 16 + x1) * 16 + x2) * 16 + x), stack, none⟩
        | _ => ⟨.inStringEscU isKey acc hi (x :: digits), stack, none⟩
    | .colon =>
      if isSpace c then ⟨.colon, stack, none⟩
      else if c = ':' then ⟨.beginValue, stack, none⟩
      else failed
    | .endValue => endValue stack result c
    | .inNumber st acc =>
      match numberNext st c with
      | some st' => ⟨.inNumber st' (c :: acc), stack, none⟩
      | none =>
        match endNumber float64 st acc stack with
        | ⟨.endValue, stack', result'⟩ => endValue stack' result' c
        | _ => failed
    | .inLiteral rest v =>
      match rest with
      | [] => failed
      | [x] => if c = x then complete v stack else failed
      | x :: more => if c = x then ⟨.inLiteral more v, stack, none⟩ else failed

/-- The end of input: a value must have been read in full. -/
def finish (float64 : Text → Option Text) : Decoder → Option Value
  | ⟨mode, stack, result⟩ =>
    match mode with
    | .endValue => result
    | .inNumber st acc =>
      match stack with
      | [] => (endNumber float64 st acc []).result
      | _ => none
    | _ => none

/-- The decoder before the first character. -/
def start : Decoder := ⟨.beginValue, [], none⟩

/-- The decoder run over a text: `json.Unmarshal(data, &v)` for `v` of type
`interface{}`; `none` is an error result. -/
def Unmarshal (float64 : Text → Option Text) (data : Text) : Option Value :=
  finish float64 (data.foldl (step float64) start)

/-- Whether the text is one well-formed JSON value: the check `json.Unmarshal` makes
before it decodes into a target of any type. -/
def Valid (data : Text) : Bool := (Unmarshal some data).isSome

def hexDigit (n : Nat) : Char := Nat.digitChar n

/-- The encoder's text for one character of a string (HTML-safe escaping). -/
def encodeChar (c : Char) : Text :=
  if c = '"' then ['\\', '"']
  else if c = '\\' then ['\\', '\\']
  else if c = '\n' then ['\\', 'n']
  else if c = '\r' then ['\\', 'r']
  else if c = '\t' then ['\\', 't']
  else if c.toNat < 0x20 ∨ c = '<' ∨ c = '>' ∨ c = '&' then
    ['\\', 'u', '0', '0', hexDigit (c.toNat / 16), hexDigit (c.toNat % 16)]
  else if c = '\u2028' then ['\\', 'u', '2', '0', '2', '8']
  else if c = '\u2029' then ['\\', 'u', '2', '0', '2', '9']
  else [c]

/-- The encoder's text for a string. -/
def encodeString (s : Text) : Text :=
  '"' :: (s.flatMap encodeChar ++ ['"'])

/-- Whether the first text sorts before the second (code point by code point). -/
def keyLess : Text → Text → Bool
  | [], [] => false
  | [], _ :: _ => true
  | _ :: _, [] => false
  | a :: as, b :: bs => a.toNat < b.toNat || (a.toNat = b.toNat && keyLess as bs)

/-- Insertion into a list of encoded map entries ordered by key. -/
def insertSorted (e : Text × Text) : List (Text × Text) → List (Text × Text)
  | [] => [e]
  | x :: rest => if keyLess e.1 x.1 then e :: x :: rest else x :: insertSorted e rest

def sortMembers (l : List (Text × Text)) : List (Text × Text) :=
  l.foldr insertSorted []

/-- The texts joined by commas. -/
def commaJoin : List Text → Text
  | [] => []
  | [x] => x
  | x :: rest => x ++ ',' :: commaJoin rest

mutual

/-- The encoder's text for a value: `json.Marshal` of an `interface{}`. Map entries are
written in the order of their keys. -/
def encode : Value → Text
  | .null => ['n', 'u', 'l', 'l']
  | .bool true => ['t', 'r', 'u', 'e']
  | .bool false => ['f', 'a', 'l', 's', 'e']
  | .number text => text
  | .string s => encodeString s
  | .array elems => '[' :: (commaJoin (encodeElems elems) ++ [']'])
  | .object members =>
    '\x7b' :: (commaJoin ((sortMembers (encodeMembers members)).map
      (fun e => encodeString e.1 ++ ':' :: e.2)) ++ ['\x7d'])

def encodeElems : List Value → List Text
  | [] => []
  | v :: rest => encode v :: encodeElems rest

def encodeMembers : List (Text × Value) → List (Text × Text)
  | [] => []
  | (k, v) :: rest => (k, encode v) :: encodeMembers rest

end

end json

/-! ## text/template: templates whose only actions are field references -/

namespace template

/-- A parsed template: literal text and references `\x7b\x7b.Field\x7d\x7d` to a field of
the data. -/
inductive Node
  | text (s : Text)
  | field (name : Text)
  deriving DecidableEq, Repr

/-- The text before the first occurrence of the two-character delimiter `a b`, and the
text after it; `none` when the delimiter does not occur. -/
def splitDelim (a b : Char) : Text → Option (Text × Text)
  | [] => none
  | c :: rest =>
    if c = a ∧ rest.head? = some b then some ([], rest.tail)
    else (splitDelim a b rest).map (fun p => (c :: p.1, p.2))

def isFieldChar (c : Char) : Bool := c.isAlphanum || c = '_'

/-- The inside of an action: a dot followed by a field name, blanks around it allowed.
Any other action is outside the templates covered here and is refused. -/
def parseAction (a : Text) : Option Node :=
  match (a.dropWhile (· = ' ')).reverse.dropWhile (· = ' ') with
  | [] => none
  | r =>
    match r.reverse with
    | '.' :: name => if name ≠ [] ∧ name.all isFieldChar then some (.field name) else none
    | _ => none

/-- Literal text becomes a node unless it is empty. -/
def textNode (s : Text) : List Node := if s = [] then [] else [.text s]

def parseNodes : Nat → Text → Option (List Node)
  | 0, _ => none
  | fuel + 1, s =>
    match splitDelim '\x7b' '\x7b' s with
    | none => some (textNode s)
    | some (t, r) =>
      match splitDelim '\x7d' '\x7d' r with
      | none => none
      | some (a, r') =>
        match parseAction a, parseNodes fuel r' with
        | some n, some ns => some (textNode t ++ n :: ns)
        | _, _ => none

/-- The method `Parse` of a template, `none` being an error. -/
def Parse (s : Text) : Option (List Node) := parseNodes (s.length + 1) s

/-- The helper `template.Must`: it panics, during package initialisation, when parsing
failed, so that what follows only ever runs with a parsed template. -/
def Must (t : Option (List Node)) : List Node := t.getD []

/-- The method `Execute` on data with string fields: text is copied, a field reference
prints the field unescaped, and a field the data does not have is an error. -/
def Execute : List Node → List (Text × Text) → Except String Text
  | [], _ => .ok []
  | .text s :: rest, data =>
    match Execute rest data with
    | .ok out => .ok (s ++ out)
    | .error err => .error err
  | .field name :: rest, data =>
    match data.lookup name, Execute rest data with
    | some v, .ok out => .ok (v ++ out)
    | none, _ => .error "can't evaluate field"
    | _, .error err => .error err

end template

/-! ## skbridge/webhook -/

namespace Webhook

namespace admv1b1

abbrev PatchType := String

def PatchTypeJSONPatch : PatchType := "JSONPatch"

/-- The type `runtime.RawExtension`: the undecoded text of an embedded object. -/
structure RawExtension where
  Raw : Text := []
  deriving DecidableEq, Repr

/-- The fields of `AdmissionRequest` that matter to the handler. -/
structure AdmissionRequest where
  UID : String := ""
  Name : String := ""
  Namespace : String := ""
  Operation : String := ""
  Object : RawExtension := {}
  OldObject : RawExtension := {}
  deriving DecidableEq, Repr

structure AdmissionResponse where
  UID : String := ""
  Allowed : Bool := false
  Result : Option String := none
  Patch : Option Text := none
  PatchType : Option PatchType := none
  deriving DecidableEq, Repr

structure AdmissionReview where
  Kind : String := ""
  APIVersion : String := ""
  Request : Option AdmissionRequest := none
  Response : Option AdmissionResponse := none
  deriving DecidableEq, Repr

end admv1b1

namespace http

def StatusBadRequest : Nat := 400

end http

/-- What the handler does with its `http.ResponseWriter`. -/
inductive Response
  /-- The call `http.Error(w, msg, code)`: status `code`, the message as the body. -/
  | Error (msg : String) (code : Nat)
  /-- The call `w.Write(out)` with no status set before: status 200, body `out`. -/
  | Write (out : Text)
  deriving DecidableEq, Repr

def patchType : admv1b1.PatchType := admv1b1.PatchTypeJSONPatch

def containerSpecTmpl : Text :=
  ("\x7b\n      \"image\": \"\x7b\x7b.SidecarImage\x7d\x7d\",\n" ++
   "      \"name\": \"spire-sidecar\",\n" ++
   "      \"volumeMounts\": [\n" ++
   "        \x7b\n" ++
   "          \"mountPath\": \"/spire\",\n" ++
   "          \"name\": \"spire-wl-api\"\n" ++
   "        \x7d\n" ++
   "      ]\n" ++
   "  \x7d").toList

def volumeSpecTmpl : Text :=
  ("\x7b\n     \"hostPath\": \x7b\n" ++
   "       \"path\": \"\x7b\x7b.HostDir\x7d\x7d\",\n" ++
   "       \"type\": \"Directory\"\n" ++
   "     \x7d,\n" ++
   "     \"name\": \"spire-wl-api\"\n" ++
   "  \x7d").toList

def cst : List template.Node := template.Must (template.Parse containerSpecTmpl)
def vst : List template.Node := template.Must (template.Parse volumeSpecTmpl)

structure rfc6902PatchOperation where
  Op : String
  Path : String
  /-- Tagged `json:"value,omitempty"`. -/
  Value : json.Value

structure Config where
  Port : String := ""
  CertFilePath : String := ""
  KeyFilePath : String := ""
  SidecarImage : String := ""
  HostMount : String := ""
  deriving DecidableEq, Repr

structure webhook extends Config
  deriving DecidableEq, Repr

/-- The encoder on one patch operation: the fields in the order of the struct, the value
left out when it is `nil`. -/
def marshalOp (op : rfc6902PatchOperation) : Text :=
  "\x7b\"op\":".toList ++ json.encodeString op.Op.toList ++
    ",\"path\":".toList ++ json.encodeString op.Path.toList ++
    (match op.Value with
      | .null => []
      | v => ",\"value\":".toList ++ json.encode v) ++ "\x7d".toList

/-- The encoder on a slice of patch operations. -/
def marshalOps (ops : List rfc6902PatchOperation) : Text :=
  '[' :: (json.commaJoin (ops.map marshalOp) ++ [']'])

/-- The method `getPatch` (webhook.go:61-93). `float64` is the number conversion of the
JSON decoder. -/
def getPatch (float64 : Text → Option Text) (wh : webhook) : Except String Text :=
  match template.Execute cst [("SidecarImage".toList, wh.SidecarImage.toList)] with
  | .error err => .error err
  | .ok containerSpec =>
    match template.Execute vst [("HostDir".toList, wh.HostMount.toList)] with
    | .error err => .error err
    | .ok volumeSpec =>
      match json.Unmarshal float64 containerSpec with
      | none => .error "json: cannot unmarshal container spec"
      | some cs =>
        match json.Unmarshal float64 volumeSpec with
        | none => .error "json: cannot unmarshal volume spec"
        | some vs =>
          let sidecarOp : rfc6902PatchOperation :=
            { Op := "add", Path := "/spec/containers/-", Value := cs }
          let volumeOp : rfc6902PatchOperation :=
            { Op := "add", Path := "/spec/volumes/-", Value := vs }
          .ok (marshalOps [sidecarOp, volumeOp])

/-- The function `needsSidecar` (webhook.go:95-98). -/
def needsSidecar {Pod : Type} (_pod : Pod) : Bool := true

/-- The library code the handler calls on Kubernetes API types: the typed decoders behind
`json.Unmarshal` for an admission review and for a pod (`none` is an error; each is
applied to well-formed JSON only), the encoder behind `json.Marshal` for an admission
review, and the number conversion of the generic decoder. -/
structure Codec (Pod : Type) where
  float64 : Text → Option Text
  decodeReview : Text → Option admv1b1.AdmissionReview
  decodePod : Text → Option Pod
  encodeReview : admv1b1.AdmissionReview → Option Text

/-- The call `json.Unmarshal(body, &admRev)`: the syntax check, then the typed decoder. -/
def unmarshalReview {Pod : Type} (lib : Codec Pod) (body : Text) :
    Option admv1b1.AdmissionReview :=
  if json.Valid body then lib.decodeReview body else none

/-- The call `json.Unmarshal(admReq.Object.Raw, &pod)`. -/
def unmarshalPod {Pod : Type} (lib : Codec Pod) (raw : Text) : Option Pod :=
  if json.Valid raw then lib.decodePod raw else none

/-- Lines 147-158 of `injectServer`: wrap the response in a review, encode and write it. -/
def writeReview {Pod : Type} (lib : Codec Pod) (admResp : admv1b1.AdmissionResponse) :
    Response :=
  let rev : admv1b1.AdmissionReview := {}
  let rev := { rev with Response := some admResp }
  match lib.encodeReview rev with
  | none => .Error "Error marshaling response patch" http.StatusBadRequest
  | some out => .Write out

/-- The handler `injectServer` (webhook.go:100-159); `reqBody` is the result of
`ioutil.ReadAll(req.Body)`. -/
def injectServer {Pod : Type} (lib : Codec Pod) (wh : webhook)
    (reqBody : Except String Text) : Response :=
  match reqBody with
  | .error _ => .Error "Error reading body" http.StatusBadRequest
  | .ok body =>
    match unmarshalReview lib body with
    | none => .Error "Error unmarshaling body" http.StatusBadRequest
    | some admRev =>
      match admRev.Request with
      | none => .Error "Error unmarshaling body: empty request" http.StatusBadRequest
      | some admReq =>
        match unmarshalPod lib admReq.Object.Raw with
        | none => .Error "Error unmarshaling raw object" http.StatusBadRequest
        | some pod =>
          let admResp : admv1b1.AdmissionResponse := {}
          let admResp := { admResp with UID := admReq.UID }
          let admResp := { admResp with Allowed := true }
          if needsSidecar pod then
            match getPatch lib.float64 wh with
            | .error _ => .Error "Error getting patch" http.StatusBadRequest
            | .ok p =>
              let admResp := { admResp with PatchType := some patchType }
              let admResp := { admResp with Patch := some p }
              writeReview lib admResp
          else writeReview lib admResp

/-! ### The patch as the specification words it -/

/-- The container to append, built directly: the supplied image, the fixed name and one
volume mount at the fixed container path. -/
def sidecarContainer (image : String) : json.Value :=
  .object
    [("image".toList, .string image.toList),
     ("name".toList, .string "spire-sidecar".toList),
     ("volumeMounts".toList, .array
        [.object [("mountPath".toList, .string "/spire".toList),
                  ("name".toList, .string "spire-wl-api".toList)]])]

/-- The volume to append, built directly: a host-path volume of type `Directory` at the
supplied host path, under the fixed volume name. -/
def sidecarVolume (hostPath : String) : json.Value :=
  .object
    [("hostPath".toList, .object [("path".toList, .string hostPath.toList),
                                  ("type".toList, .string "Directory".toList)]),
     ("name".toList, .string "spire-wl-api".toList)]

/-- The two operations, container first, then volume. -/
def expectedPatch (image hostPath : String) : List rfc6902PatchOperation :=
  [{ Op := "add", Path := "/spec/containers/-", Value := sidecarContainer image },
   { Op := "add", Path := "/spec/volumes/-", Value := sidecarVolume hostPath }]

/-- A character that is no double quote, no backslash and no control character below
U+0020: it may stand in a JSON string literal as it is. -/
def plainChar (c : Char) : Prop := c ≠ '"' ∧ c ≠ '\\' ∧ 0x20 ≤ c.toNat

instance (c : Char) : Decidable (plainChar c) := by
  unfold plainChar
  infer_instance

/-- The text of `containerSpecTmpl` before its action. -/
def containerHead : Text := "\x7b\n      \"image\": \"".toList

/-- The text of `containerSpecTmpl` after its action. -/
def containerTail : Text :=
  ("\",\n" ++
   "      \"name\": \"spire-sidecar\",\n" ++
   "      \"volumeMounts\": [\n" ++
   "        \x7b\n" ++
   "          \"mountPath\": \"/spire\",\n" ++
   "          \"name\": \"spire-wl-api\"\n" ++
   "        \x7d\n" ++
   "      ]\n" ++
   "  \x7d").toList

/-- The text of `volumeSpecTmpl` before its action. -/
def volumeHead : Text := "\x7b\n     \"hostPath\": \x7b\n       \"path\": \"".toList

/-- The text of `volumeSpecTmpl` after its action. -/
def volumeTail : Text :=
  ("\",\n" ++
   "       \"type\": \"Directory\"\n" ++
   "     \x7d,\n" ++
   "     \"name\": \"spire-wl-api\"\n" ++
   "  \x7d").toList

/-! ### Concrete requests and configurations -/

/-- The configuration of the specification's example. -/
def sampleWebhook : webhook :=
  { SidecarImage := "my-image:latest", HostMount := "/tmp/spire" }

/-- The patch text for `sampleWebhook`. -/
def samplePatch : Text :=
  ("[\x7b\"op\":\"add\",\"path\":\"/spec/containers/-\",\"value\":" ++
   "\x7b\"image\":\"my-image:latest\",\"name\":\"spire-sidecar\",\"volumeMounts\":" ++
   "[\x7b\"mountPath\":\"/spire\",\"name\":\"spire-wl-api\"\x7d]\x7d\x7d," ++
   "\x7b\"op\":\"add\",\"path\":\"/spec/volumes/-\",\"value\":" ++
   "\x7b\"hostPath\":\x7b\"path\":\"/tmp/spire\",\"type\":\"Directory\"\x7d," ++
   "\"name\":\"spire-wl-api\"\x7d\x7d]").toList

/-- A configuration whose image reference contains a double quote. -/
def quotedWebhook : webhook :=
  { SidecarImage := "my\"image", HostMount := "/tmp/spire" }

/-- A configuration whose image reference closes the string literal of the template and
goes on with an entry of its own. -/
def injectingWebhook : webhook :=
  { SidecarImage := "x\",\"name\":\"evil", HostMount := "/tmp/spire" }

/-- An admission request with identifier `uid-1` for a pod given as the empty JSON
object. -/
def sampleRequest : admv1b1.AdmissionRequest :=
  { UID := "uid-1", Object := { Raw := "\x7b\x7d".toList } }

/-- The body `\x7b"request":\x7b"uid":"uid-1","object":\x7b\x7d\x7d\x7d`: an admission review
that holds `sampleRequest`. -/
def sampleBody : Text :=
  "\x7b\"request\":\x7b\"uid\":\"uid-1\",\"object\":\x7b\x7d\x7d\x7d".toList

/-! ### A codec for the examples

The typed decoders and the encoder below follow the library on JSON whose keys are
spelled as in the API and occur once; they look at the fields the structures above have
and at no others. -/

/-- The UTF-8 bytes of a character. -/
def utf8Bytes (c : Char) : List Nat :=
  let n := c.toNat
  if n < 0x80 then [n]
  else if n < 0x800 then [0xC0 + n / 64, 0x80 + n % 64]
  else if n < 0x10000 then [0xE0 + n / 4096, 0x80 + n / 64 % 64, 0x80 + n % 64]
  else [0xF0 + n / 262144, 0x80 + n / 4096 % 64, 0x80 + n / 64 % 64, 0x80 + n % 64]

/-- The character of the standard base64 alphabet for a six-bit value. -/
def base64Digit (n : Nat) : Char :=
  if n < 26 then Char.ofNat (65 + n)
  else if n < 52 then Char.ofNat (97 + (n - 26))
  else if n < 62 then Char.ofNat (48 + (n - 52))
  else if n = 62 then '+'
  else '/'

/-- Standard base64 with padding, which is how the encoder writes a `[]byte`. -/
def base64 : List Nat → Text
  | a :: b :: c :: rest =>
    base64Digit (a / 4) :: base64Digit (a % 4 * 16 + b / 16) ::
      base64Digit (b % 16 * 4 + c / 64) :: base64Digit (c % 64) :: base64 rest
  | [a, b] =>
    [base64Digit (a / 4), base64Digit (a % 4 * 16 + b / 16), base64Digit (b % 16 * 4), '=']
  | [a] => [base64Digit (a / 4), base64Digit (a % 4 * 16), '=', '=']
  | [] => []

/-- A field of string type: absent or `null` leaves the zero value, a string is taken
over, any other value is a type error (`none`). -/
def stringField (members : List (Text × json.Value)) (key : String) : Option String :=
  match members.lookup key.toList with
  | none => some ""
  | some .null => some ""
  | some (.string s) => some (String.mk s)
  | some _ => none

/-- A field of type `runtime.RawExtension`: the text of the value (here in the encoder's
spelling), left empty when the field is absent or `null`. -/
def rawField (members : List (Text × json.Value)) (key : String) : admv1b1.RawExtension :=
  match members.lookup key.toList with
  | none => {}
  | some .null => {}
  | some v => { Raw := json.encode v }

/-- The typed decoder on the members of a request object. -/
def decodeRequest (members : List (Text × json.Value)) : Option admv1b1.AdmissionRequest :=
  match stringField members "uid", stringField members "name",
    stringField members "namespace", stringField members "operation" with
  | some uid, some name, some ns, some op =>
    some { UID := uid, Name := name, Namespace := ns, Operation := op,
           Object := rawField members "object", OldObject := rawField members "oldObject" }
  | _, _, _, _ => none

/-- The typed decoder of admission reviews: `null` leaves the zero review, an object is
read field by field (a request that is absent or `null` stays `nil`), any other value is
a type error. -/
def decodeReview (body : Text) : Option admv1b1.AdmissionReview :=
  match json.Unmarshal some body with
  | some .null => some {}
  | some (.object members) =>
    match stringField members "kind", stringField members "apiVersion" with
    | some kind, some apiVersion =>
      match members.lookup "request".toList with
      | none => some { Kind := kind, APIVersion := apiVersion }
      | some .null => some { Kind := kind, APIVersion := apiVersion }
      | some (.object request) =>
        match decodeRequest request with
        | some req => some { Kind := kind, APIVersion := apiVersion, Request := some req }
        | none => none
      | some _ => none
    | _, _ => none
  | _ => none

/-- The typed decoder of pods, for a pod type with one value: `null` and every JSON
object decode, any other value is a type error. -/
def decodePod (raw : Text) : Option Unit :=
  match json.Unmarshal some raw with
  | some .null => some ()
  | some (.object _) => some ()
  | _ => none

/-- The encoder on a response: `uid` and `allowed` always, `patch` (in base64) and
`patchType` when they are set. -/
def encodeResponse (resp : admv1b1.AdmissionResponse) : Text :=
  "\x7b\"uid\":".toList ++ json.encodeString resp.UID.toList ++
    ",\"allowed\":".toList ++ (if resp.Allowed then "true".toList else "false".toList) ++
    (match resp.Patch with
      | none => []
      | some [] => []
      | some p => ",\"patch\":\"".toList ++ base64 (p.flatMap utf8Bytes) ++ ['"']) ++
    (match resp.PatchType with
      | none => []
      | some t => ",\"patchType\":".toList ++ json.encodeString t.toList) ++
    "\x7d".toList

/-- The encoder on a review that holds a response and nothing else, which is what the
handler builds; a review of another shape is outside this example and refused. -/
def encodeReview (rev : admv1b1.AdmissionReview) : Option Text :=
  match rev.Kind, rev.APIVersion, rev.Request, rev.Response with
  | "", "", none, some resp =>
    match resp.Result with
    | none => some ("\x7b\"response\":".toList ++ encodeResponse resp ++ "\x7d".toList)
    | some _ => none
  | _, _, _, _ => none

/-- The codec of the examples. -/
def sampleCodec : Codec Unit :=
  { float64 := some
    decodeReview := decodeReview
    decodePod := decodePod
    encodeReview := encodeReview }

/-- What the handler writes for `sampleBody` under `sampleWebhook`: the review whose
response has the identifier `uid-1`, `allowed` true, the patch `samplePatch` in base64 and
the patch type `JSONPatch`. -/
def sampleAnswer : Text :=
  ("\x7b\"response\":\x7b\"uid\":\"uid-1\",\"allowed\":true,\"patch\":\"" ++
   "W3sib3AiOiJhZGQiLCJwYXRoIjoiL3NwZWMvY29udGFpbmVycy8tIiwidmFsdWUiOnsiaW1hZ2UiOiJt" ++
   "eS1pbWFnZTpsYXRlc3QiLCJuYW1lIjoic3BpcmUtc2lkZWNhciIsInZvbHVtZU1vdW50cyI6W3sibW91" ++
   "bnRQYXRoIjoiL3NwaXJlIiwibmFtZSI6InNwaXJlLXdsLWFwaSJ9XX19LHsib3AiOiJhZGQiLCJwYXRo" ++
   "IjoiL3NwZWMvdm9sdW1lcy8tIiwidmFsdWUiOnsiaG9zdFBhdGgiOnsicGF0aCI6Ii90bXAvc3BpcmUi" ++
   "LCJ0eXBlIjoiRGlyZWN0b3J5In0sIm5hbWUiOiJzcGlyZS13bC1hcGkifX1d" ++
   "\",\"patchType\":\"JSONPatch\"\x7d\x7d").toList

end Webhook

end SpireK8s

namespace SpireK8s

/-! ## Decimal formatting -/

namespace strconv

theorem digitChar_toNat (d : Nat) (h : d < 10) : (Nat.digitChar d).toNat - 48 = d := by
  interval_cases d <;> rfl

theorem digitChar_ne_minus (d : Nat) (h : d < 10) : Nat.digitChar d ≠ '-' := by
  interval_cases d <;> decide

theorem digitsValue_formatBits (fuel u : Nat) (acc : List Char) (h : u < fuel) :
    digitsValue 0 (formatBits fuel u acc) = digitsValue u acc := by
  induction fuel generalizing u acc with
  | zero => omega
  | succ fuel ih =>
    unfold formatBits
    split
    · rename_i hu
      simp [digitsValue, digitChar_toNat u hu]
    · rename_i hu
      rw [ih (u / 10) _ (by omega)]
      simp only [digitsValue, List.foldl_cons]
      rw [digitChar_toNat (u % 10) (Nat.mod_lt _ (by decide))]
      congr 1
      omega

theorem minus_not_mem_formatBits (fuel u : Nat) (acc : List Char) (h : '-' ∉ acc) :
    '-' ∉ formatBits fuel u acc := by
  induction fuel generalizing u acc with
  | zero => simpa [formatBits] using h
  | succ fuel ih =>
    unfold formatBits
    split
    · rename_i hu
      simp only [List.mem_cons, not_or]
      exact ⟨fun e => digitChar_ne_minus u hu e.symm, h⟩
    · apply ih
      simp only [List.mem_cons, not_or]
      exact ⟨fun e => digitChar_ne_minus (u % 10) (Nat.mod_lt _ (by decide)) e.symm, h⟩

theorem FormatUint_injective (u v : Nat) (h : FormatUint u = FormatUint v) : u = v := by
  have hu := digitsValue_formatBits (u + 1) u [] (by omega)
  have hv := digitsValue_formatBits (v + 1) v [] (by omega)
  unfold FormatUint at h
  rw [h, hv] at hu
  simpa [digitsValue] using hu.symm

theorem minus_not_mem_FormatUint (u : Nat) : '-' ∉ FormatUint u :=
  minus_not_mem_formatBits _ _ _ (by simp)

end strconv

/-- Two texts split at the first occurrence of a separator agree part by part. -/
theorem append_sep_inj_first {α : Type} (a : α) (x₁ x₂ z₁ z₂ : List α) (h₁ : a ∉ x₁)
    (h₂ : a ∉ x₂) (h : x₁ ++ a :: z₁ = x₂ ++ a :: z₂) : x₁ = x₂ ∧ z₁ = z₂ := by
  induction x₁ generalizing x₂ with
  | nil =>
    cases x₂ with
    | nil => simpa using h
    | cons c x₂ =>
      simp only [List.nil_append, List.cons_append, List.cons.injEq] at h
      exact absurd (h.1 ▸ List.mem_cons_self _ _) h₂
  | cons b x₁ ih =>
    cases x₂ with
    | nil =>
      simp only [List.nil_append, List.cons_append, List.cons.injEq] at h
      exact absurd (h.1 ▸ List.mem_cons_self _ _) h₁
    | cons c x₂ =>
      simp only [List.cons_append, List.cons.injEq] at h
      simp only [List.mem_cons, not_or] at h₁ h₂
      obtain ⟨e, hz⟩ := ih x₂ h₁.2 h₂.2 h.2
      exact ⟨by rw [h.1, e], hz⟩

/-- Two texts split at the last occurrence of a separator agree part by part. -/
theorem append_sep_inj_last {α : Type} (a : α) (x₁ x₂ z₁ z₂ : List α) (h₁ : a ∉ z₁)
    (h₂ : a ∉ z₂) (h : x₁ ++ a :: z₁ = x₂ ++ a :: z₂) : x₁ = x₂ ∧ z₁ = z₂ := by
  have hr := congrArg List.reverse h
  simp only [List.reverse_append, List.reverse_cons, List.append_assoc, List.singleton_append]
    at hr
  obtain ⟨hz, hx⟩ := append_sep_inj_first a z₁.reverse z₂.reverse x₁.reverse x₂.reverse
    (by simpa using h₁) (by simpa using h₂) hr
  exact ⟨List.reverse_injective hx, List.reverse_injective hz⟩

namespace NodeAttestor

theorem csrObjectName_data (a : String) (t : Int) :
    (csrObjectName a t).data = a.data ++ '-' :: strconv.FormatInt t := by
  simp [csrObjectName, String.data_append]

theorem scanConditions_eq (conds : List certificates.CertificateSigningRequestCondition)
    (certificate cert : Bytes) :
    scanConditions conds certificate cert =
      if conds.any (fun cond => decide (cond.Type_ = certificates.CertificateApproved)) = true
      then certificate else cert := by
  induction conds with
  | nil => simp [scanConditions]
  | cons cond rest ih =>
    unfold scanConditions
    by_cases hc : cond.Type_ = certificates.CertificateApproved
    · simp [hc]
    · simp [hc, ih]

/-- An event that carries a request and does not approve leaves the loop waiting with an
empty certificate. -/
theorem loopBody_of_not_approves (name : String) (i : Nat) (e : Event)
    (hreq : e.isRequest = true) (hno : approves name e = false) :
    loopBody name i [] e = .watching (i + 1) [] := by
  obtain ⟨t, o⟩ := e
  cases o with
  | other k => simp [Event.isRequest] at hreq
  | csr c =>
    simp only [loopBody, scanConditions_eq]
    simp only [approves, namesApproved, Bool.and_eq_false_iff, decide_eq_false_iff_not,
      List.any_eq_false, ne_eq, not_not] at hno
    by_cases hg : t = watch.Modified ∧ c.Name = name
    · rw [if_pos hg]
      by_cases ha : c.Status.Conditions.any
          (fun cond => decide (cond.Type_ = certificates.CertificateApproved)) = true
      · rw [if_pos ha]
        have hc : c.Status.Certificate = [] := by
          rcases hno with (h | h | h) | h
          · exact absurd hg.1 h
          · exact absurd hg.2 h
          · simp only [List.any_eq_true, decide_eq_true_eq] at ha
            obtain ⟨cond, hm, hcond⟩ := ha
            exact absurd hcond (by simpa using h cond hm)
          · exact h
        simp [hc]
      · rw [if_neg ha]; simp
    · rw [if_neg hg]; simp

/-- An approving event makes the loop leave with the event's certificate. -/
theorem loopBody_of_approves (name : String) (i : Nat) (cert : Bytes) (e : Event)
    (h : approves name e = true) :
    ∃ c, e.Object = .csr c ∧ c.Status.Certificate ≠ [] ∧
      loopBody name i cert e = .approved i c.Status.Certificate := by
  obtain ⟨t, o⟩ := e
  cases o with
  | other k => simp [approves] at h
  | csr c =>
    simp only [approves, namesApproved, Bool.and_eq_true, decide_eq_true_eq] at h
    obtain ⟨⟨ht, hn, ha⟩, hc⟩ := h
    refine ⟨c, rfl, hc, ?_⟩
    have hl : 0 < c.Status.Certificate.length := List.length_pos.2 hc
    simp [loopBody, scanConditions_eq, ht, hn, ha, hl]

/-- While the channel delivers requests that do not approve, the loop keeps waiting and
nothing is captured. -/
theorem run_watching (name : String) (wc : ResultChan) (n : Nat)
    (h : ∀ j < n, ∃ e, wc j = some e ∧ e.isRequest = true ∧ approves name e = false) :
    run name wc n = .watching n [] := by
  induction n with
  | zero => rfl
  | succ n ih =>
    obtain ⟨e, he, hreq, hno⟩ := h n (Nat.lt_succ_self n)
    rw [run, ih (fun j hj => h j (Nat.lt_succ_of_lt hj))]
    simp only [step, he]
    exact loopBody_of_not_approves name n e hreq hno

theorem step_of_ended (name : String) (wc : ResultChan) (s : LoopState)
    (h : s.ended = true) : step name wc s = s := by
  cases s <;> simp_all [LoopState.ended, step]

/-- Once the loop is left, further steps change nothing. -/
theorem run_stable (name : String) (wc : ResultChan) (n m : Nat) (hnm : n ≤ m)
    (h : (run name wc n).ended = true) : run name wc m = run name wc n := by
  induction m with
  | zero =>
    have : n = 0 := by omega
    subst this; rfl
  | succ m ih =>
    rcases Nat.lt_or_ge m n with hlt | hge
    · have : n = m + 1 := by omega
      subst this; rfl
    · rw [run, ih hge, step_of_ended name wc _ h]

theorem not_terminates_of_never_approves (name : String) (wc : ResultChan)
    (h : ∀ j, ∃ e, wc j = some e ∧ e.isRequest = true ∧ approves name e = false) :
    ¬ Terminates name wc := by
  rintro ⟨n, hn⟩
  rw [run_watching name wc n (fun j _ => h j)] at hn
  simp [LoopState.ended] at hn

/-! ### The claims on the node attestor -/

/-- C1, as stated, fails: the claimed equivalence between the end of the wait and the
presence of an event that names the request with an `Approved` condition is false for a
channel that keeps delivering the approved request without its certificate, for a channel
that keeps delivering it in `ADDED` events, and for a channel closed at once. -/
theorem terminates_iff_namesApproved_fails :
    ¬ (Terminates "node-1-1700000000" (constChan pendingEvent) ↔
        ∃ i e, constChan pendingEvent i = some e ∧ namesApproved "node-1-1700000000" e = true) ∧
    ¬ (Terminates "node-1-1700000000" (constChan addedEvent) ↔
        ∃ i e, constChan addedEvent i = some e ∧ namesApproved "node-1-1700000000" e = true) ∧
    ¬ (Terminates "node-1-1700000000" closedChan ↔
        ∃ i e, closedChan i = some e ∧ namesApproved "node-1-1700000000" e = true) := by
  refine ⟨fun h => ?_, fun h => ?_, fun h => ?_⟩
  · exact not_terminates_of_never_approves _ _ (fun _ => ⟨pendingEvent, rfl, by decide, by decide⟩)
      (h.2 ⟨0, pendingEvent, rfl, by decide⟩)
  · exact not_terminates_of_never_approves _ _ (fun _ => ⟨addedEvent, rfl, by decide, by decide⟩)
      (h.2 ⟨0, addedEvent, rfl, by decide⟩)
  · obtain ⟨i, e, he, _⟩ := h.1 ⟨1, by decide⟩
    simp [closedChan] at he

/-- C1, amended: on a channel of signing requests that is not closed before it has
delivered an approving event (as long as every earlier event was delivered and did not
approve, the next receive yields a signing request), the wait ends if and only if some
event is a `MODIFIED` event that names the submitted request, has an `Approved` condition
and carries a non-empty certificate. -/
theorem terminates_iff_approves (name : String) (wc : ResultChan)
    (hdeliver : ∀ i, (∀ j < i, ∃ e, wc j = some e ∧ approves name e = false) →
      ∃ e, wc i = some e ∧ e.isRequest = true) :
    Terminates name wc ↔ ∃ i e, wc i = some e ∧ approves name e = true := by
  constructor
  · intro hT
    by_contra hno
    have hall : ∀ i, ∃ e, wc i = some e ∧ e.isRequest = true ∧ approves name e = false := by
      intro i
      induction i using Nat.strong_induction_on with
      | _ i ih =>
        obtain ⟨e, he, hreq⟩ := hdeliver i (fun j hj => by
          obtain ⟨e', he', _, hn'⟩ := ih j hj
          exact ⟨e', he', hn'⟩)
        refine ⟨e, he, hreq, ?_⟩
        by_contra ha
        exact hno ⟨i, e, he, by simpa using ha⟩
    exact not_terminates_of_never_approves name wc hall hT
  · intro hex
    have hex' : ∃ i, ∃ e, wc i = some e ∧ approves name e = true := hex
    classical
    obtain ⟨e, he, ha⟩ := Nat.find_spec hex'
    have hbefore : ∀ j, j < Nat.find hex' →
        ∃ e, wc j = some e ∧ e.isRequest = true ∧ approves name e = false := by
      intro j
      induction j using Nat.strong_induction_on with
      | _ j ih =>
        intro hj
        obtain ⟨e', he', hreq'⟩ := hdeliver j (fun k hk => by
          obtain ⟨e'', he'', _, hn''⟩ := ih k hk (lt_trans hk hj)
          exact ⟨e'', he'', hn''⟩)
        refine ⟨e', he', hreq', ?_⟩
        by_contra hc
        exact Nat.find_min hex' hj ⟨e', he', by simpa using hc⟩
    obtain ⟨c, _, _, hb⟩ := loopBody_of_approves name (Nat.find hex') [] e ha
    refine ⟨Nat.find hex' + 1, ?_⟩
    rw [run, run_watching name wc (Nat.find hex') hbefore]
    simp only [step, he, hb]
    rfl

/-- C1, amended, on the end-to-end scenario: the channel delivers the one approving event
and is then closed; the wait ends. -/
theorem terminates_iff_approves_witness :
    Terminates "node-1-1700000000" (singleChan approvedEvent) ∧
    (Terminates "node-1-1700000000" (singleChan approvedEvent) ↔
      ∃ i e, singleChan approvedEvent i = some e ∧ approves "node-1-1700000000" e = true) :=
  ⟨⟨1, by decide⟩,
    terminates_iff_approves "node-1-1700000000" (singleChan approvedEvent) (fun i h => by
      cases i with
      | zero => exact ⟨approvedEvent, rfl, by decide⟩
      | succ i =>
        obtain ⟨e, he, hn⟩ := h 0 (Nat.succ_pos i)
        simp only [singleChan, if_true, Option.some.injEq] at he
        subst he
        exact absurd hn (by decide))⟩

/-- C5: while every delivered event is a signing request that names another request, or
is not a `MODIFIED` event, or has no `Approved` condition, the loop is not left and the
captured certificate stays empty: after `m` such events control is at the head of the
loop, about to receive event `m`, with `cert` empty. -/
theorem ignored_events_keep_waiting (name : String) (wc : ResultChan) (n : Nat)
    (h : ∀ j < n, ∃ t c, wc j = some ⟨t, .csr c⟩ ∧
      (c.Name ≠ name ∨ t ≠ watch.Modified ∨
        ∀ cond ∈ c.Status.Conditions, cond.Type_ ≠ certificates.CertificateApproved)) :
    ∀ m ≤ n, run name wc m = .watching m [] ∧ (run name wc m).ended = false := by
  intro m hm
  have hrun : run name wc m = .watching m [] := by
    apply run_watching
    intro j hj
    obtain ⟨t, c, he, hcase⟩ := h j (lt_of_lt_of_le hj hm)
    refine ⟨_, he, rfl, ?_⟩
    simp only [approves, namesApproved, Bool.and_eq_false_iff, decide_eq_false_iff_not,
      List.any_eq_false]
    rcases hcase with h1 | h2 | h3
    · exact Or.inl (Or.inr (Or.inl h1))
    · exact Or.inl (Or.inl h2)
    · exact Or.inl (Or.inr (Or.inr (fun cond hc => by simpa using h3 cond hc)))
  exact ⟨hrun, by rw [hrun]; rfl⟩

/-- C5 on three events that name the request of another agent. -/
theorem ignored_events_keep_waiting_witness :
    run "node-1-1700000000" (constChan otherEvent) 3 = .watching 3 [] ∧
      (run "node-1-1700000000" (constChan otherEvent) 3).ended = false :=
  ignored_events_keep_waiting "node-1-1700000000" (constChan otherEvent) 3
    (fun _ _ => ⟨watch.Modified, approvedRequest "node-2-1700000000" CERTBYTES, rfl,
      Or.inl (by decide)⟩) 3 (le_refl 3)

/-- C6: when event number `i` is a `MODIFIED` event for the submitted name with an
`Approved` condition and a non-empty certificate `C`, and every earlier event was a
signing request that captured nothing, the loop is still waiting when the event arrives,
is left by `break` at that event with `cert = C`, and from then on the run stands at the
write of `C` to `id-doc.crt` under the identity directory. -/
theorem approved_event_writes_certificate (idDocDir name : String) (wc : ResultChan)
    (i : Nat) (C : Bytes) (c : certificates.CertificateSigningRequest)
    (hC : C ≠ []) (hev : wc i = some ⟨watch.Modified, .csr c⟩) (hname : c.Name = name)
    (hcond : ∃ cond ∈ c.Status.Conditions, cond.Type_ = certificates.CertificateApproved)
    (hcert : c.Status.Certificate = C)
    (hearlier : ∀ j < i, ∃ e, wc j = some e ∧ e.isRequest = true ∧ approves name e = false) :
    run name wc i = .watching i [] ∧
    run name wc (i + 1) = .approved i C ∧
    ∀ n, i < n → approvalPhase idDocDir name (.ok wc) n =
      some (.writeFile (path.Join [idDocDir, "id-doc.crt"]) C 0o644) := by
  have h0 := run_watching name wc i hearlier
  have ha : approves name ⟨watch.Modified, .csr c⟩ = true := by
    obtain ⟨cond, hm, hc⟩ := hcond
    simp only [approves, namesApproved, Bool.and_eq_true, decide_eq_true_eq, List.any_eq_true]
    exact ⟨⟨trivial, hname, cond, hm, hc⟩, by rw [hcert]; exact hC⟩
  obtain ⟨c', hc', _, hb⟩ := loopBody_of_approves name i [] _ ha
  have hcc : c' = c := by
    simp only [Object.csr.injEq] at hc'
    exact hc'.symm
  subst hcc
  have h1 : run name wc (i + 1) = .approved i C := by
    rw [run, h0]
    simp only [step, hev]
    rw [hb, hcert]
  refine ⟨h0, h1, fun n hn => ?_⟩
  have hs := run_stable name wc (i + 1) n hn (by rw [h1]; rfl)
  simp only [approvalPhase, hs, h1, afterLoop]
  rfl

/-- C6 on the end-to-end scenario: agent `node-1`, request `node-1-1700000000`, one
approving event with certificate `CERTBYTES`. -/
theorem approved_event_writes_certificate_witness :
    csrObjectName "node-1" 1700000000 = "node-1-1700000000" ∧
    (run "node-1-1700000000" (singleChan approvedEvent) 0 = .watching 0 [] ∧
      run "node-1-1700000000" (singleChan approvedEvent) 1 = .approved 0 CERTBYTES ∧
      ∀ n, 0 < n →
        approvalPhase "/tmp/spire-agent-id" "node-1-1700000000" (.ok (singleChan approvedEvent)) n =
          some (.writeFile (path.Join ["/tmp/spire-agent-id", "id-doc.crt"]) CERTBYTES 0o644)) :=
  ⟨by decide,
    approved_event_writes_certificate "/tmp/spire-agent-id" "node-1-1700000000"
      (singleChan approvedEvent) 0 CERTBYTES (approvedRequest "node-1-1700000000" CERTBYTES)
      (by decide) rfl rfl ⟨_, List.mem_singleton_self _, rfl⟩ rfl
      (fun j hj => absurd hj (Nat.not_lt_zero j))⟩

/-- C7, at the failing input: when the watch channel is closed before any approval was
seen (closed at once, or closed after one event for the request of another agent), the
`range` loop runs to its end with `cert` still empty and the run goes on to the write of
line 205, with empty data, instead of exiting fatally. -/
theorem closed_channel_reaches_write :
    (run "node-1-1700000000" closedChan 1 = .drained [] ∧
      approvalPhase "/tmp/spire-agent-id" "node-1-1700000000" (.ok closedChan) 1 =
        some (.writeFile (path.Join ["/tmp/spire-agent-id", "id-doc.crt"]) [] 0o644)) ∧
    ((∀ i e, singleChan otherEvent i = some e → namesApproved "node-1-1700000000" e = false) ∧
      run "node-1-1700000000" (singleChan otherEvent) 2 = .drained [] ∧
      approvalPhase "/tmp/spire-agent-id" "node-1-1700000000" (.ok (singleChan otherEvent)) 2 =
        some (.writeFile (path.Join ["/tmp/spire-agent-id", "id-doc.crt"]) [] 0o644)) := by
  refine ⟨⟨by decide, by decide⟩, fun i e h => ?_, by decide, by decide⟩
  by_cases hi : i = 0
  · simp only [singleChan, hi, if_true, Option.some.injEq] at h
    subst h
    decide
  · simp [singleChan, hi] at h

/-- C8: the submitted name, the agent name followed by `-` and the decimal timestamp,
determines both parts when the timestamps are not negative. -/
theorem csrObjectName_injective (a1 a2 : String) (t1 t2 : Int) (h1 : 0 ≤ t1) (h2 : 0 ≤ t2)
    (h : csrObjectName a1 t1 = csrObjectName a2 t2) : a1 = a2 ∧ t1 = t2 := by
  have hd := congrArg String.data h
  rw [csrObjectName_data, csrObjectName_data] at hd
  have e1 : strconv.FormatInt t1 = strconv.FormatUint t1.natAbs := by
    simp [strconv.FormatInt, not_lt.2 h1]
  have e2 : strconv.FormatInt t2 = strconv.FormatUint t2.natAbs := by
    simp [strconv.FormatInt, not_lt.2 h2]
  rw [e1, e2] at hd
  obtain ⟨ha, ht⟩ := append_sep_inj_last '-' _ _ _ _
    (strconv.minus_not_mem_FormatUint _) (strconv.minus_not_mem_FormatUint _) hd
  refine ⟨String.ext ha, ?_⟩
  have := strconv.FormatUint_injective _ _ ht
  omega

/-- C8 on the agent `node-1` at time 1700000000. -/
theorem csrObjectName_injective_witness :
    csrObjectName "node-1" 1700000000 = "node-1-1700000000" ∧
      ("node-1" = "node-1" ∧ (1700000000 : Int) = 1700000000) :=
  ⟨by decide,
    csrObjectName_injective "node-1" "node-1" 1700000000 1700000000 (by decide) (by decide) rfl⟩

/-- C9: for every agent name `n` and key, the template `genCSR` passes to
`x509.CreateCertificateRequest` has common name `system:node:` followed by `n`,
organization `[system:nodes]`, signature algorithm ECDSA with SHA-256 and no
subject-alternative names, and it is passed together with the given key. -/
theorem genCSR_template {Key : Type} (key : Key) (n : String) :
    (genCSR key n).template.Subject.CommonName = "system:node:" ++ n ∧
    (genCSR key n).template.Subject.Organization = ["system:nodes"] ∧
    (genCSR key n).template.SignatureAlgorithm = .ECDSAWithSHA256 ∧
    (genCSR key n).template.DNSNames = [] ∧
    (genCSR key n).template.IPAddresses = [] ∧
    (genCSR key n).template.EmailAddresses = [] ∧
    (genCSR key n).template.URIs = [] ∧
    (genCSR key n).priv = key :=
  ⟨rfl, rfl, rfl, rfl, rfl, rfl, rfl, rfl⟩

end NodeAttestor

end SpireK8s

namespace SpireK8s

set_option maxRecDepth 100000

namespace Webhook

open json

/-! ### Rendering the templates -/

theorem cst_eq :
    cst = [.text containerHead, .field "SidecarImage".toList, .text containerTail] := by
  decide

theorem vst_eq : vst = [.text volumeHead, .field "HostDir".toList, .text volumeTail] := by
  decide

/-- The container template renders to its text with the image put in unescaped. -/
theorem execute_cst (image : Text) :
    template.Execute cst [("SidecarImage".toList, image)] =
      .ok (containerHead ++ (image ++ containerTail)) := by
  rw [cst_eq]
  simp [template.Execute, List.lookup]

/-- The volume template renders to its text with the host path put in unescaped. -/
theorem execute_vst (dir : Text) :
    template.Execute vst [("HostDir".toList, dir)] =
      .ok (volumeHead ++ (dir ++ volumeTail)) := by
  rw [vst_eq]
  simp [template.Execute, List.lookup]

/-! ### Decoding the rendered text -/

theorem step_plain (f : Text → Option Text) (k : Bool) (acc : Text) (st : List Frame)
    (c : Char) (h : plainChar c) :
    step f ⟨.inString k acc none, st, none⟩ c = ⟨.inString k (c :: acc) none, st, none⟩ := by
  obtain ⟨h1, h2, h3⟩ := h
  simp [step, h1, h2, not_lt.2 h3, flush]

/-- Inside a string literal, plain characters are taken over one by one. -/
theorem foldl_plain (f : Text → Option Text) (k : Bool) (s acc : Text) (st : List Frame)
    (h : ∀ c ∈ s, plainChar c) :
    s.foldl (step f) ⟨.inString k acc none, st, none⟩ =
      ⟨.inString k (s.reverse ++ acc) none, st, none⟩ := by
  induction s generalizing acc with
  | nil => rfl
  | cons c s ih =>
    rw [List.foldl_cons, step_plain f k acc st c (h c (List.mem_cons_self _ _)),
      ih _ (fun d hd => h d (List.mem_cons_of_mem _ hd))]
    simp

theorem containerHead_run (f : Text → Option Text) :
    containerHead.foldl (step f) start =
      ⟨.inString false [] none, [.object [] (some "image".toList)], none⟩ := by
  rfl

theorem containerTail_run (f : Text → Option Text) (acc : Text) :
    finish f (containerTail.foldl (step f)
      ⟨.inString false acc none, [.object [] (some "image".toList)], none⟩) =
    some (.object
      [("image".toList, .string acc.reverse),
       ("name".toList, .string "spire-sidecar".toList),
       ("volumeMounts".toList, .array
          [.object [("mountPath".toList, .string "/spire".toList),
                    ("name".toList, .string "spire-wl-api".toList)]])]) := by
  rfl

theorem volumeHead_run (f : Text → Option Text) :
    volumeHead.foldl (step f) start =
      ⟨.inString false [] none,
        [.object [] (some "path".toList), .object [] (some "hostPath".toList)], none⟩ := by
  rfl

theorem volumeTail_run (f : Text → Option Text) (acc : Text) :
    finish f (volumeTail.foldl (step f)
      ⟨.inString false acc none,
        [.object [] (some "path".toList), .object [] (some "hostPath".toList)], none⟩) =
    some (.object
      [("hostPath".toList, .object [("path".toList, .string acc.reverse),
                                    ("type".toList, .string "Directory".toList)]),
       ("name".toList, .string "spire-wl-api".toList)]) := by
  rfl

/-- The rendered container text decodes to the container built directly. -/
theorem unmarshal_container (f : Text → Option Text) (image : String)
    (h : ∀ c ∈ image.toList, plainChar c) :
    Unmarshal f (containerHead ++ (image.toList ++ containerTail)) =
      some (sidecarContainer image) := by
  unfold Unmarshal
  rw [List.foldl_append, List.foldl_append, containerHead_run, foldl_plain f _ _ _ _ h,
    containerTail_run]
  simp [sidecarContainer]

/-- The rendered volume text decodes to the volume built directly. -/
theorem unmarshal_volume (f : Text → Option Text) (dir : String)
    (h : ∀ c ∈ dir.toList, plainChar c) :
    Unmarshal f (volumeHead ++ (dir.toList ++ volumeTail)) = some (sidecarVolume dir) := by
  unfold Unmarshal
  rw [List.foldl_append, List.foldl_append, volumeHead_run, foldl_plain f _ _ _ _ h,
    volumeTail_run]
  simp [sidecarVolume]

/-! ### The claims on the webhook -/

/-- C2: for every image reference and host path without double quote, backslash or
control character, `getPatch` returns no error, and its output is the JSON encoding of
the two operations built directly (`expectedPatch`): first the `add` of the sidecar
container at the end of `/spec/containers`, then the `add` of the host-path volume at the
end of `/spec/volumes`. -/
theorem getPatch_plain (float64 : Text → Option Text) (wh : webhook)
    (himage : ∀ c ∈ wh.SidecarImage.toList, plainChar c)
    (hdir : ∀ c ∈ wh.HostMount.toList, plainChar c) :
    getPatch float64 wh = .ok (marshalOps (expectedPatch wh.SidecarImage wh.HostMount)) := by
  unfold getPatch
  rw [execute_cst, execute_vst]
  simp only [unmarshal_container float64 _ himage, unmarshal_volume float64 _ hdir]
  rfl

/-- C2 on the image `my-image:latest` and the host path `/tmp/spire`. -/
theorem getPatch_plain_witness :
    getPatch some sampleWebhook = .ok samplePatch :=
  (getPatch_plain some sampleWebhook (by decide) (by decide)).trans (by decide)

/-- The encoder of the examples on the review the handler builds for `sampleBody` under
`sampleWebhook`. -/
theorem encodeReview_sample :
    sampleCodec.encodeReview
      { Response := some { UID := sampleRequest.UID, Allowed := true,
                           PatchType := some "JSONPatch", Patch := some samplePatch } } =
      some sampleAnswer := by
  decide!

/-- C3, as stated, fails: with an image reference that contains a double quote, the body
`sampleBody`, which decodes as an admission review with a request whose object decodes as
a pod, is answered with status 400 and the message of the failed patch construction, not
with an admission review. -/
theorem injectServer_quoted_image_rejects :
    unmarshalReview sampleCodec sampleBody = some { Request := some sampleRequest } ∧
    unmarshalPod sampleCodec sampleRequest.Object.Raw = some () ∧
    injectServer sampleCodec quotedWebhook (.ok sampleBody) =
      .Error "Error getting patch" 400 ∧
    ∀ out, injectServer sampleCodec quotedWebhook (.ok sampleBody) ≠ .Write out := by
  refine ⟨by decide, by decide, by decide, fun out h => ?_⟩
  have h400 : injectServer sampleCodec quotedWebhook (.ok sampleBody) =
      .Error "Error getting patch" 400 := by decide
  rw [h400] at h
  exact Response.noConfusion h

/-- C3, amended: when the body decodes as an admission review with a request, the
embedded object decodes as a pod and `getPatch` returns a patch `p` without error, then
`needsSidecar` holds for the pod and the handler answers with the encoding of the review
whose response echoes the request UID, has `allowed = true`, patch type `JSONPatch` and
patch `p`: that review is what it hands to the encoder (lines 147-158), whose output it
writes. -/
theorem injectServer_patches {Pod : Type} (lib : Codec Pod) (wh : webhook) (body : Text)
    (rev : admv1b1.AdmissionReview) (req : admv1b1.AdmissionRequest) (pod : Pod)
    (p : Text)
    (hrev : unmarshalReview lib body = some rev) (hreq : rev.Request = some req)
    (hpod : unmarshalPod lib req.Object.Raw = some pod)
    (hpatch : getPatch lib.float64 wh = .ok p) :
    needsSidecar pod = true ∧
    injectServer lib wh (.ok body) =
      writeReview lib { UID := req.UID, Allowed := true,
                        PatchType := some "JSONPatch", Patch := some p } ∧
    ∀ out, lib.encodeReview
        { Response := some { UID := req.UID, Allowed := true,
                             PatchType := some "JSONPatch", Patch := some p } } = some out →
      injectServer lib wh (.ok body) = .Write out := by
  have h : injectServer lib wh (.ok body) =
      writeReview lib { UID := req.UID, Allowed := true,
                        PatchType := some "JSONPatch", Patch := some p } := by
    simp only [injectServer, hrev, hreq, hpod, hpatch, needsSidecar, if_true]
    rfl
  refine ⟨rfl, h, fun out hout => ?_⟩
  rw [h]
  simp only [writeReview]
  rw [hout]

/-- C3, amended, on the configuration of the example and the body `sampleBody`: the
handler writes `sampleAnswer`. -/
theorem injectServer_patches_witness :
    unmarshalReview sampleCodec sampleBody = some { Request := some sampleRequest } ∧
    injectServer sampleCodec sampleWebhook (.ok sampleBody) = .Write sampleAnswer :=
  ⟨by decide,
    (injectServer_patches sampleCodec sampleWebhook sampleBody
      { Request := some sampleRequest } sampleRequest () samplePatch
      (by decide) rfl (by decide) (by decide)).2.2 sampleAnswer encodeReview_sample⟩

/-- C4: when the body is not well-formed JSON or is refused by the decoder of admission
reviews, or the decoded review has no request, or the embedded object is not well-formed
JSON or is refused by the decoder of pods, the handler answers with `http.Error`, status
400 and a non-empty message, and so writes no admission review. -/
theorem injectServer_rejects {Pod : Type} (lib : Codec Pod) (wh : webhook) (body : Text)
    (h : json.Valid body = false ∨ lib.decodeReview body = none ∨
      ∃ rev, lib.decodeReview body = some rev ∧
        (rev.Request = none ∨
          ∃ req, rev.Request = some req ∧
            (json.Valid req.Object.Raw = false ∨ lib.decodePod req.Object.Raw = none))) :
    (∃ msg, msg ≠ "" ∧ injectServer lib wh (.ok body) = .Error msg http.StatusBadRequest) ∧
    ∀ out, injectServer lib wh (.ok body) ≠ .Write out := by
  have key : ∃ msg, msg ≠ "" ∧
      injectServer lib wh (.ok body) = .Error msg http.StatusBadRequest := by
    by_cases hv : json.Valid body = true
    · rcases h with h | h | ⟨rev, hrev, h⟩
      · rw [hv] at h; exact absurd h (by decide)
      · exact ⟨"Error unmarshaling body", by decide, by
          simp [injectServer, unmarshalReview, hv, h]⟩
      · rcases h with h | ⟨req, hreq, h⟩
        · exact ⟨"Error unmarshaling body: empty request", by decide, by
            simp [injectServer, unmarshalReview, hv, hrev, h]⟩
        · refine ⟨"Error unmarshaling raw object", by decide, ?_⟩
          have hp : unmarshalPod lib req.Object.Raw = none := by
            unfold unmarshalPod
            rcases h with h | h
            · simp [h]
            · simp [h]
          simp [injectServer, unmarshalReview, hv, hrev, hreq, hp]
    · exact ⟨"Error unmarshaling body", by decide, by
        simp [injectServer, unmarshalReview, hv]⟩
  refine ⟨key, fun out hw => ?_⟩
  obtain ⟨msg, _, he⟩ := key
  rw [he] at hw
  exact Response.noConfusion hw

/-- C4 on a body that is not JSON. -/
theorem injectServer_rejects_witness :
    (∃ msg, msg ≠ "" ∧
      injectServer sampleCodec sampleWebhook (.ok "not json".toList) =
        .Error msg http.StatusBadRequest) ∧
    ∀ out, injectServer sampleCodec sampleWebhook (.ok "not json".toList) ≠ .Write out :=
  injectServer_rejects sampleCodec sampleWebhook "not json".toList (Or.inl (by decide))

/-- C10: the image reference is put into the template text unescaped, and the result is
not faithful for an image reference with a double quote: for the image `my"image`
`getPatch` returns an error, and for the image `x","name":"evil` it returns a patch that
is not the encoding of the operations built directly from that image. -/
theorem getPatch_unescaped :
    (∀ image : String,
      template.Execute cst [("SidecarImage".toList, image.toList)] =
        .ok (containerHead ++ (image.toList ++ containerTail))) ∧
    ('"' ∈ quotedWebhook.SidecarImage.toList ∧
      ∀ float64, ∃ err, getPatch float64 quotedWebhook = .error err) ∧
    ('"' ∈ injectingWebhook.SidecarImage.toList ∧
      ∀ float64, ∃ out, getPatch float64 injectingWebhook = .ok out ∧
        out ≠ marshalOps
          (expectedPatch injectingWebhook.SidecarImage injectingWebhook.HostMount)) := by
  refine ⟨fun image => execute_cst image.toList, ⟨by decide, fun f => ⟨_, rfl⟩⟩,
    ⟨by decide, fun f => ⟨_, rfl, by decide⟩⟩⟩

end Webhook

end SpireK8s
